import Mathlib

/-!
Shallow embedding of the `rae` scheduler core (src/src/agent/src/scheduler/)
and proofs about its specification claims.

Modelling conventions, used throughout:
* `DateTime<Utc>` instants are modelled as `Int` (seconds since an epoch);
  every function that calls `Utc::now()` in the source takes the current
  instant as an explicit `now` parameter.
* `f64` fields are modelled as `Rat` (the claims under study never exercise
  non-finite floats).
* `HashMap` is modelled as an association list; `BinaryHeap` is modelled as a
  list whose `peek`/`pop` pick a maximal element under the translated `Ord`
  (a deterministic refinement of Rust's max-heap, which pops some maximal
  element).
* The external `cron` crate is modelled abstractly: a parsed `cron::Schedule`
  is a function `next : Int -> Option Int` standing for
  `schedule.after(&t).next()`, and `cron::Schedule::from_str` is a parameter
  `lib : CronLib`.
* Fallible operations return `Except`.
-/

namespace Rae

abbrev Instant := Int

abbrev JobId := String

/-- Model of a parsed `cron::Schedule` from the external `cron` crate:
`next t` stands for `schedule.after(&t).next()`. -/
structure CronSched where
  next : Instant → Option Instant

/-- Model of `cron::Schedule::from_str`: `none` when parsing fails. -/
abbrev CronLib := String → Option CronSched

/-- `Priority` from job.rs (C-like enum with discriminants 0..3,
`derive(PartialOrd, Ord)`). -/
inductive Priority
  | Low
  | Normal
  | High
  | Critical
deriving DecidableEq, Repr

/-- Discriminant of the Rust enum. -/
def Priority.toNat : Priority → Nat
  | .Low => 0
  | .Normal => 1
  | .High => 2
  | .Critical => 3

/-- The derived `Ord` on the C-like enum compares discriminants. -/
def Priority.cmp (a b : Priority) : Ordering :=
  compare a.toNat b.toNat

/-- `JobStatus` from job.rs. -/
inductive JobStatus
  | Scheduled
  | Running
  | Completed
  | Failed (error : String)
  | Cancelled
  | Retrying (attempts : Nat) (max_attempts : Nat)
deriving DecidableEq, Repr

/-- `EventType` from job.rs. -/
inductive EventType
  | FileCreated
  | FileModified
  | FileDeleted
  | SystemStartup
  | SystemShutdown
  | Custom (tag : String)
deriving DecidableEq, Repr

/-- `EventTrigger` from job.rs. -/
structure EventTrigger where
  event_type : EventType
  path : Option String
  filter : Option (List (String × String))
deriving DecidableEq, Repr

/-- `PatternType` from job.rs. -/
inductive PatternType
  | HighCpuUsage
  | HighMemoryUsage
  | FrequentFileAccess
  | Custom (tag : String)
deriving DecidableEq, Repr

/-- `PatternTrigger` from job.rs (`threshold : f64` modelled as `Rat`). -/
structure PatternTrigger where
  pattern_type : PatternType
  threshold : Rat
  window : Nat
deriving DecidableEq, Repr

/-- `Schedule` from job.rs. -/
structure Schedule where
  cron : Option String
  «at» : Option Instant
  event : Option EventTrigger
  pattern : Option PatternTrigger
  timezone : Option String
deriving DecidableEq, Repr

/-- `Schedule::default()`. -/
def Schedule.default : Schedule :=
  { cron := none, «at» := none, event := none, pattern := none, timezone := none }

/-- `RetryPolicy` from job.rs. -/
structure RetryPolicy where
  max_attempts : Nat
  delay : Nat
  exponential_backoff : Bool
  max_delay : Option Nat
deriving DecidableEq, Repr

/-- `RetryPolicy::default()`. -/
def RetryPolicy.default : RetryPolicy :=
  { max_attempts := 3, delay := 60, exponential_backoff := true, max_delay := some 3600 }

/-- `ResourceLimits` from job.rs (`max_cpu : f64` modelled as `Rat`). -/
structure ResourceLimits where
  max_cpu : Option Rat
  max_memory : Option Nat
  max_duration : Option Nat
  max_disk_io_mb : Option Nat
deriving DecidableEq, Repr

/-- `ResourceLimits::default()`. -/
def ResourceLimits.default : ResourceLimits :=
  { max_cpu := some 50, max_memory := some 512, max_duration := some 3600,
    max_disk_io_mb := some 100 }

/-- `Job` from job.rs.  `env : HashMap<String, String>` is modelled as an
association list. -/
structure Job where
  id : JobId
  name : String
  description : Option String
  schedule : Schedule
  command : String
  args : List String
  working_dir : Option String
  env : List (String × String)
  retry_policy : RetryPolicy
  priority : Priority
  resource_limits : ResourceLimits
  enabled : Bool
  created_at : Instant
  updated_at : Instant
deriving DecidableEq, Repr

/-- `ResourceUsage` from job.rs. -/
structure ResourceUsage where
  cpu_percent : Rat
  memory_mb : Nat
  duration_seconds : Nat
  disk_io_mb : Nat
deriving DecidableEq, Repr

/-- `JobResult` from job.rs. -/
structure JobResult where
  job_id : JobId
  started_at : Instant
  ended_at : Option Instant
  exit_code : Option Int
  stdout : String
  stderr : String
  status : JobStatus
  resource_usage : Option ResourceUsage
deriving DecidableEq, Repr

/-- `QueueError` from queue.rs. -/
inductive QueueError
  | JobAlreadyExists (id : String)
  | JobNotFound (id : String)
  | InvalidJob (msg : String)
deriving DecidableEq, Repr

/-- `QueuedJob` from queue.rs. -/
structure QueuedJob where
  job : Job
  next_execution : Option Instant
  priority : Priority
  added_at : Instant
deriving DecidableEq, Repr

/-- `impl Ord for QueuedJob` (queue.rs lines 49–65), translated verbatim:
compare priorities; on a tie compare the `next_execution` options with
`Some` earlier-is-less and `Some < None`. -/
def QueuedJob.cmp (a b : QueuedJob) : Ordering :=
  match Priority.cmp a.priority b.priority with
  | .eq =>
    match a.next_execution, b.next_execution with
    | some ta, some tb => compare ta tb
    | some _, none => .lt
    | none, some _ => .gt
    | none, none => .eq
  | o => o

/-- `QueueStats` from queue.rs (`average_wait_time : f64` as `Rat`). -/
structure QueueStats where
  total_jobs : Nat
  scheduled_jobs : Nat
  running_jobs : Nat
  completed_jobs : Nat
  failed_jobs : Nat
  average_wait_time : Rat
deriving DecidableEq, Repr

/-- `QueueStats::default()`. -/
def QueueStats.default : QueueStats :=
  { total_jobs := 0, scheduled_jobs := 0, running_jobs := 0,
    completed_jobs := 0, failed_jobs := 0, average_wait_time := 0 }

/-- `JobQueue` from queue.rs: `jobs` is the `BinaryHeap<QueuedJob>` (as a
list-multiset), `job_index` the `HashMap<JobId, QueuedJob>` (as an
association list). -/
structure JobQueue where
  jobs : List QueuedJob
  job_index : List (JobId × QueuedJob)
  stats : QueueStats

/-- `JobQueue::new()`. -/
def JobQueue.new : JobQueue :=
  { jobs := [], job_index := [], stats := QueueStats.default }

/-- `HashMap::contains_key` on the association list. -/
def indexContains (idx : List (JobId × QueuedJob)) (id : JobId) : Bool :=
  idx.any (fun e => e.1 = id)

/-- `HashMap::remove` on the association list (keys are unique). -/
def indexRemove (idx : List (JobId × QueuedJob)) (id : JobId) :
    List (JobId × QueuedJob) :=
  idx.filter (fun e => ¬ e.1 = id)

/-- `BinaryHeap::peek`: some maximal element under `QueuedJob.cmp`
(deterministic refinement: the scan keeps the strictly greater candidate). -/
def heapPeek : List QueuedJob → Option QueuedJob
  | [] => none
  | x :: xs => some (xs.foldl (fun best y => if QueuedJob.cmp y best = .gt then y else best) x)

/-- `JobQueue::calculate_next_execution` (queue.rs lines 242–265):
disabled jobs get `None`; a cron expression that parses returns the crate's
next occurrence directly; otherwise a future `at` is returned; otherwise
`None`. -/
def JobQueue.calculate_next_execution (lib : CronLib) (now : Instant)
    (job : Job) : Option Instant :=
  if ¬ job.enabled then none
  else
    match job.schedule.cron with
    | some expr =>
      match lib expr with
      | some sched => sched.next now
      | none =>
        match job.schedule.«at» with
        | some a => if now < a then some a else none
        | none => none
    | none =>
      match job.schedule.«at» with
      | some a => if now < a then some a else none
      | none => none

/-- `JobQueue::add_job` (queue.rs lines 112–138). -/
def JobQueue.add_job (lib : CronLib) (now : Instant) (q : JobQueue)
    (job : Job) : Except QueueError JobQueue :=
  if indexContains q.job_index job.id then
    .error (.JobAlreadyExists job.id)
  else
    let next_execution := JobQueue.calculate_next_execution lib now job
    let queued_job : QueuedJob :=
      { job := job, next_execution := next_execution,
        priority := job.priority, added_at := now }
    .ok { jobs := queued_job :: q.jobs,
          job_index := (job.id, queued_job) :: q.job_index,
          stats := { q.stats with
            total_jobs := q.stats.total_jobs + 1,
            scheduled_jobs := q.stats.scheduled_jobs + 1 } }

/-- `JobQueue::rebuild_queue` (queue.rs lines 268–273). -/
def JobQueue.rebuild_queue (q : JobQueue) : JobQueue :=
  { q with jobs := q.job_index.map (fun e => e.2) }

/-- `JobQueue::remove_job` (queue.rs lines 141–157). -/
def JobQueue.remove_job (q : JobQueue) (job_id : JobId) :
    Except QueueError JobQueue :=
  if ¬ indexContains q.job_index job_id then
    .error (.JobNotFound job_id)
  else
    let q1 := JobQueue.rebuild_queue { q with job_index := indexRemove q.job_index job_id }
    .ok { q1 with stats := { q1.stats with
            total_jobs := q1.job_index.length,
            scheduled_jobs := q1.jobs.length } }

/-- `JobQueue::get_next_job` (queue.rs lines 160–198).  The `while` loop in
the source either returns or breaks in every branch of its body, so it
inspects only the heap top: a top entry with `next_execution = Some t ≤ now`
or with `next_execution = None` is popped (from heap and index) and
returned; a future top yields `None`. -/
def JobQueue.get_next_job (now : Instant) (q : JobQueue) :
    Option Job × JobQueue :=
  match heapPeek q.jobs with
  | none => (none, q)
  | some queued_job =>
    match queued_job.next_execution with
    | some next_execution =>
      if next_execution ≤ now then
        let jobs := q.jobs.erase queued_job
        (some queued_job.job,
         { jobs := jobs,
           job_index := indexRemove q.job_index queued_job.job.id,
           stats := { q.stats with scheduled_jobs := jobs.length } })
      else
        (none, q)
    | none =>
      let jobs := q.jobs.erase queued_job
      (some queued_job.job,
       { jobs := jobs,
         job_index := indexRemove q.job_index queued_job.job.id,
         stats := { q.stats with scheduled_jobs := jobs.length } })

/-- `JobQueue::get_due_jobs` (queue.rs lines 211–225): a job with
`next_execution = None` is considered always due. -/
def JobQueue.get_due_jobs (now : Instant) (q : JobQueue) : List Job :=
  ((q.job_index.map (fun e => e.2)).filter
    (fun qj =>
      match qj.next_execution with
      | some next_execution => next_execution ≤ now
      | none => true)).map (fun qj => qj.job)

/-- `JobQueue::update_job` (queue.rs lines 228–234): remove then add. -/
def JobQueue.update_job (lib : CronLib) (now : Instant) (q : JobQueue)
    (job : Job) : Except QueueError JobQueue := do
  let q1 ← JobQueue.remove_job q job.id
  JobQueue.add_job lib now q1 job

/-- `JobQueue::clear` (queue.rs lines 276–280). -/
def JobQueue.clear (_q : JobQueue) : JobQueue :=
  { jobs := [], job_index := [], stats := QueueStats.default }

/-- `JobQueue::len` (queue.rs lines 283–285): the index size. -/
def JobQueue.len (q : JobQueue) : Nat :=
  q.job_index.length

end Rae

namespace Rae

/-- `ParserError` from parser.rs. -/
inductive ParserError
  | InvalidCronExpression (msg : String)
  | InvalidTimeFormat (msg : String)
  | InvalidTimezone (msg : String)
  | InvalidEventTrigger (msg : String)
  | InvalidPatternTrigger (msg : String)
deriving DecidableEq, Repr

/-- `Parser::parse_cron` (parser.rs lines 34–38), over the modelled crate. -/
def Parser.parse_cron (lib : CronLib) (cron_expr : String) :
    Except ParserError CronSched :=
  match lib cron_expr with
  | some sched => .ok sched
  | none => .error (.InvalidCronExpression cron_expr)

/-- `Parser::next_cron_execution` (parser.rs lines 117–120):
`schedule.after(&after).next().unwrap_or(after)` — when the cron schedule
has no occurrence after `after`, the function returns `after` itself. -/
def Parser.next_cron_execution (lib : CronLib) (cron_expr : String)
    (after : Instant) : Except ParserError Instant := do
  let sched ← Parser.parse_cron lib cron_expr
  .ok ((sched.next after).getD after)

/-- `Parser::next_execution` (parser.rs lines 123–138): a present cron
expression short-circuits (its next occurrence is returned and `at` is never
consulted); otherwise a strictly-future `at` is returned; otherwise `None`
(event/pattern triggers). -/
def Parser.next_execution (lib : CronLib) (schedule : Schedule)
    (after : Instant) : Except ParserError (Option Instant) :=
  match schedule.cron with
  | some cron_expr => do
    let t ← Parser.next_cron_execution lib cron_expr after
    .ok (some t)
  | none =>
    match schedule.«at» with
    | some a => if after < a then .ok (some a) else .ok none
    | none => .ok none

/-- `ExecutorError` from executor.rs. -/
inductive ExecutorError
  | ExecutionFailed (msg : String)
  | ProcessCreationFailed (msg : String)
  | ResourceLimitExceeded (msg : String)
  | JobTimeout (msg : String)
  | RetryLimitExceeded (msg : String)
  | InvalidJob (msg : String)
deriving DecidableEq, Repr

/-- `JobExecutionRequest` from executor.rs. -/
structure JobExecutionRequest where
  job : Job
  attempt : Nat
deriving DecidableEq, Repr

/-- `JobExecutor::calculate_retry_delay` (executor.rs lines 341–356),
in whole seconds. -/
def JobExecutor.calculate_retry_delay (job : Job) (attempt : Nat) : Nat :=
  let base_delay := job.retry_policy.delay
  if job.retry_policy.exponential_backoff then
    let exponential_delay := base_delay * 2 ^ (attempt - 1)
    match job.retry_policy.max_delay with
    | some max_delay => min exponential_delay max_delay
    | none => exponential_delay
  else
    base_delay

/-- Observable events of the executor worker loop: a produced `JobResult`
(with the attempt number of the request that produced it) and a backoff
sleep. -/
inductive ExecEvent
  | ran (result : JobResult) (attempt : Nat)
  | slept (seconds : Nat)
deriving DecidableEq, Repr

/-- `JobExecutor::process_jobs` (executor.rs lines 193–253).  The channel is
modelled as a FIFO list of requests; a retry is appended at the back.
`runJob` models `execute_single_job` (the subprocess environment); `fuel`
bounds the number of loop iterations (channel receives) observed, since the
source loop runs until the channel closes. -/
def JobExecutor.process_jobs (runJob : Job → Nat → JobResult) :
    Nat → List JobExecutionRequest → List ExecEvent
  | 0, _ => []
  | _ + 1, [] => []
  | fuel + 1, request :: rest =>
    let result := runJob request.job request.attempt
    match result.status with
    | .Failed _ =>
      if request.attempt < request.job.retry_policy.max_attempts then
        .ran result request.attempt ::
          .slept (JobExecutor.calculate_retry_delay request.job request.attempt) ::
          JobExecutor.process_jobs runJob fuel
            (rest ++ [{ job := request.job, attempt := request.attempt + 1 }])
      else
        .ran result request.attempt :: JobExecutor.process_jobs runJob fuel rest
    | _ => .ran result request.attempt :: JobExecutor.process_jobs runJob fuel rest

/-- The attempt numbers of the `JobResult` records in a worker-loop trace. -/
def ranAttempts (events : List ExecEvent) : List Nat :=
  events.filterMap (fun e =>
    match e with
    | .ran _ attempt => some attempt
    | .slept _ => none)

/-- The backoff sleeps of a worker-loop trace, in order. -/
def sleptSeconds (events : List ExecEvent) : List Nat :=
  events.filterMap (fun e =>
    match e with
    | .ran _ _ => none
    | .slept s => some s)

end Rae

namespace Rae

/-- JSON documents, modelling the `serde_json` value layer (the text layer of
`serde_json::to_string_pretty` / `from_str` is taken as exact on well-formed
documents; `f64` numbers are `Rat`). -/
inductive Json
  | null
  | bool (b : Bool)
  | num (n : Rat)
  | str (s : String)
  | arr (elems : List Json)
  | obj (fields : List (String × Json))
deriving Repr

/-- `chrono` serializes a `DateTime<Utc>` through an injective textual form;
with instants modelled as `Int` the encoding is modelled as the number. -/
def encodeInstant (t : Instant) : Json := .num (t : Rat)

def decodeInstant : Json → Except String Instant
  | .num n => if n.den = 1 then .ok n.num else .error "expected timestamp"
  | _ => .error "expected timestamp"

def encodeNat (n : Nat) : Json := .num (n : Rat)

def decodeNat : Json → Except String Nat
  | .num n => if n.den = 1 && 0 ≤ n.num then .ok n.num.toNat else .error "expected u64"
  | _ => .error "expected u64"

def encodeRat (x : Rat) : Json := .num x

def decodeRat : Json → Except String Rat
  | .num n => .ok n
  | _ => .error "expected f64"

def encodeStr (s : String) : Json := .str s

def decodeStr : Json → Except String String
  | .str s => .ok s
  | _ => .error "expected string"

def encodeBool (b : Bool) : Json := .bool b

def decodeBool : Json → Except String Bool
  | .bool b => .ok b
  | _ => .error "expected bool"

/-- serde encodes `Option<T>` as `null` / the encoding of the value. -/
def encodeOpt (f : α → Json) : Option α → Json
  | none => .null
  | some a => f a

def decodeOpt (f : Json → Except String α) : Json → Except String (Option α)
  | .null => .ok none
  | j => (f j).map some

/-- A `HashMap<String, String>` serializes as a JSON object of strings. -/
def encodeStrMap (m : List (String × String)) : Json :=
  .obj (m.map (fun p => (p.1, Json.str p.2)))

def decodeStrPairs : List (String × Json) → Except String (List (String × String))
  | [] => .ok []
  | (k, .str v) :: rest => do
    let r ← decodeStrPairs rest
    .ok ((k, v) :: r)
  | _ => .error "expected string map"

def decodeStrMap : Json → Except String (List (String × String))
  | .obj fields => decodeStrPairs fields
  | _ => .error "expected map"

/-- Field access in a serde struct: a required field must be present. -/
def getField (fields : List (String × Json)) (name : String) : Except String Json :=
  match fields.lookup name with
  | some j => .ok j
  | none => .error name

/-- serde treats a missing `Option` field as `None`. -/
def getOptField (fields : List (String × Json)) (name : String)
    (f : Json → Except String α) : Except String (Option α) :=
  match fields.lookup name with
  | some j => decodeOpt f j
  | none => .ok none

/-- serde externally-tagged encoding of `Priority` (unit variants). -/
def encodePriority : Priority → Json
  | .Low => .str "Low"
  | .Normal => .str "Normal"
  | .High => .str "High"
  | .Critical => .str "Critical"

def decodePriority : Json → Except String Priority
  | .str "Low" => .ok .Low
  | .str "Normal" => .ok .Normal
  | .str "High" => .ok .High
  | .str "Critical" => .ok .Critical
  | _ => .error "expected Priority"

/-- serde externally-tagged encoding of `EventType`. -/
def encodeEventType : EventType → Json
  | .FileCreated => .str "FileCreated"
  | .FileModified => .str "FileModified"
  | .FileDeleted => .str "FileDeleted"
  | .SystemStartup => .str "SystemStartup"
  | .SystemShutdown => .str "SystemShutdown"
  | .Custom tag => .obj [("Custom", .str tag)]

def decodeEventType : Json → Except String EventType
  | .str "FileCreated" => .ok .FileCreated
  | .str "FileModified" => .ok .FileModified
  | .str "FileDeleted" => .ok .FileDeleted
  | .str "SystemStartup" => .ok .SystemStartup
  | .str "SystemShutdown" => .ok .SystemShutdown
  | .obj [("Custom", .str tag)] => .ok (.Custom tag)
  | _ => .error "expected EventType"

/-- serde externally-tagged encoding of `PatternType`. -/
def encodePatternType : PatternType → Json
  | .HighCpuUsage => .str "HighCpuUsage"
  | .HighMemoryUsage => .str "HighMemoryUsage"
  | .FrequentFileAccess => .str "FrequentFileAccess"
  | .Custom tag => .obj [("Custom", .str tag)]

def decodePatternType : Json → Except String PatternType
  | .str "HighCpuUsage" => .ok .HighCpuUsage
  | .str "HighMemoryUsage" => .ok .HighMemoryUsage
  | .str "FrequentFileAccess" => .ok .FrequentFileAccess
  | .obj [("Custom", .str tag)] => .ok (.Custom tag)
  | _ => .error "expected PatternType"

def encodeEventTrigger (e : EventTrigger) : Json :=
  .obj [("event_type", encodeEventType e.event_type),
        ("path", encodeOpt encodeStr e.path),
        ("filter", encodeOpt encodeStrMap e.filter)]

def decodeEventTrigger : Json → Except String EventTrigger
  | .obj fields => do
    let event_type ← getField fields "event_type" >>= decodeEventType
    let path ← getOptField fields "path" decodeStr
    let filter ← getOptField fields "filter" decodeStrMap
    .ok { event_type := event_type, path := path, filter := filter }
  | _ => .error "expected EventTrigger"

def encodePatternTrigger (p : PatternTrigger) : Json :=
  .obj [("pattern_type", encodePatternType p.pattern_type),
        ("threshold", encodeRat p.threshold),
        ("window", encodeNat p.window)]

def decodePatternTrigger : Json → Except String PatternTrigger
  | .obj fields => do
    let pattern_type ← getField fields "pattern_type" >>= decodePatternType
    let threshold ← getField fields "threshold" >>= decodeRat
    let window ← getField fields "window" >>= decodeNat
    .ok { pattern_type := pattern_type, threshold := threshold, window := window }
  | _ => .error "expected PatternTrigger"

def encodeSchedule (s : Schedule) : Json :=
  .obj [("cron", encodeOpt encodeStr s.cron),
        ("at", encodeOpt encodeInstant s.«at»),
        ("event", encodeOpt encodeEventTrigger s.event),
        ("pattern", encodeOpt encodePatternTrigger s.pattern),
        ("timezone", encodeOpt encodeStr s.timezone)]

def decodeSchedule : Json → Except String Schedule
  | .obj fields => do
    let cron ← getOptField fields "cron" decodeStr
    let a ← getOptField fields "at" decodeInstant
    let event ← getOptField fields "event" decodeEventTrigger
    let pattern ← getOptField fields "pattern" decodePatternTrigger
    let timezone ← getOptField fields "timezone" decodeStr
    .ok { cron := cron, «at» := a, event := event, pattern := pattern,
          timezone := timezone }
  | _ => .error "expected Schedule"

def encodeRetryPolicy (r : RetryPolicy) : Json :=
  .obj [("max_attempts", encodeNat r.max_attempts),
        ("delay", encodeNat r.delay),
        ("exponential_backoff", encodeBool r.exponential_backoff),
        ("max_delay", encodeOpt encodeNat r.max_delay)]

def decodeRetryPolicy : Json → Except String RetryPolicy
  | .obj fields => do
    let max_attempts ← getField fields "max_attempts" >>= decodeNat
    let delay ← getField fields "delay" >>= decodeNat
    let exponential_backoff ← getField fields "exponential_backoff" >>= decodeBool
    let max_delay ← getOptField fields "max_delay" decodeNat
    .ok { max_attempts := max_attempts, delay := delay,
          exponential_backoff := exponential_backoff, max_delay := max_delay }
  | _ => .error "expected RetryPolicy"

def encodeResourceLimits (r : ResourceLimits) : Json :=
  .obj [("max_cpu", encodeOpt encodeRat r.max_cpu),
        ("max_memory", encodeOpt encodeNat r.max_memory),
        ("max_duration", encodeOpt encodeNat r.max_duration),
        ("max_disk_io", encodeOpt encodeNat r.max_disk_io_mb)]

def decodeResourceLimits : Json → Except String ResourceLimits
  | .obj fields => do
    let max_cpu ← getOptField fields "max_cpu" decodeRat
    let max_memory ← getOptField fields "max_memory" decodeNat
    let max_duration ← getOptField fields "max_duration" decodeNat
    let max_disk ← getOptField fields "max_disk_io" decodeNat
    .ok { max_cpu := max_cpu, max_memory := max_memory,
          max_duration := max_duration, max_disk_io_mb := max_disk }
  | _ => .error "expected ResourceLimits"

/-- serde derive encoding of `Job` (job.rs lines 176–206): an object with one
entry per field, in declaration order. -/
def encodeJob (j : Job) : Json :=
  .obj [("id", encodeStr j.id),
        ("name", encodeStr j.name),
        ("description", encodeOpt encodeStr j.description),
        ("schedule", encodeSchedule j.schedule),
        ("command", encodeStr j.command),
        ("args", .arr (j.args.map encodeStr)),
        ("working_dir", encodeOpt encodeStr j.working_dir),
        ("env", encodeStrMap j.env),
        ("retry_policy", encodeRetryPolicy j.retry_policy),
        ("priority", encodePriority j.priority),
        ("resource_limits", encodeResourceLimits j.resource_limits),
        ("enabled", encodeBool j.enabled),
        ("created_at", encodeInstant j.created_at),
        ("updated_at", encodeInstant j.updated_at)]

def decodeStrList : List Json → Except String (List String)
  | [] => .ok []
  | .str s :: rest => do
    let r ← decodeStrList rest
    .ok (s :: r)
  | _ => .error "expected string array"

def decodeArgs : Json → Except String (List String)
  | .arr elems => decodeStrList elems
  | _ => .error "expected array"

/-- serde derive decoding of `Job`: every non-`Option` field must be present
with the right type; `Option` fields default to `None`; unknown fields are
ignored. -/
def decodeJob : Json → Except String Job
  | .obj fields => do
    let id ← getField fields "id" >>= decodeStr
    let name ← getField fields "name" >>= decodeStr
    let description ← getOptField fields "description" decodeStr
    let schedule ← getField fields "schedule" >>= decodeSchedule
    let command ← getField fields "command" >>= decodeStr
    let args ← getField fields "args" >>= decodeArgs
    let working_dir ← getOptField fields "working_dir" decodeStr
    let env ← getField fields "env" >>= decodeStrMap
    let retry_policy ← getField fields "retry_policy" >>= decodeRetryPolicy
    let priority ← getField fields "priority" >>= decodePriority
    let resource_limits ← getField fields "resource_limits" >>= decodeResourceLimits
    let enabled ← getField fields "enabled" >>= decodeBool
    let created_at ← getField fields "created_at" >>= decodeInstant
    let updated_at ← getField fields "updated_at" >>= decodeInstant
    .ok { id := id, name := name, description := description,
          schedule := schedule, command := command, args := args,
          working_dir := working_dir, env := env, retry_policy := retry_policy,
          priority := priority, resource_limits := resource_limits,
          enabled := enabled, created_at := created_at, updated_at := updated_at }
  | _ => .error "expected Job"

end Rae

namespace Rae

/-- `PersistenceError` from persistence.rs. -/
inductive PersistenceError
  | IoError (msg : String)
  | SerializationError (msg : String)
  | JobNotFound (id : String)
  | InvalidJobData (msg : String)
  | StorageDirectoryError (msg : String)
deriving DecidableEq, Repr

/-- The jobs directory, as a map from file name to JSON document content. -/
abbrev Store := List (String × Json)

def storeLookup : Store → String → Option Json
  | [], _ => none
  | (q, v) :: rest, p => if q = p then some v else storeLookup rest p

def storeInsert : Store → String → Json → Store
  | [], p, v => [(p, v)]
  | (q, w) :: rest, p, v =>
    if q = p then (p, v) :: rest else (q, w) :: storeInsert rest p v

def storeRemove (s : Store) (p : String) : Store :=
  s.filter (fun e => ¬ e.1 = p)

/-- File-system operations performed by the persistence layer, recorded so
that statements about the save protocol (temporary files, renames) can be
made. -/
inductive FileOp
  | create (path : String)
  | writeAll (path : String) (data : Json)
  | flush (path : String)
  | rename (src : String) (dst : String)
  | removeFile (path : String)
deriving Repr

/-- Whether a file operation mentions the given path. -/
def FileOp.touches (p : String) : FileOp → Bool
  | .create q => q = p
  | .writeAll q _ => q = p
  | .flush q => q = p
  | .rename src dst => src = p || dst = p
  | .removeFile q => q = p

def FileOp.isRename : FileOp → Bool
  | .rename _ _ => true
  | _ => false

/-- `JobPersistence::get_job_file_path` (persistence.rs lines 74–76); the
constant storage directory is elided. -/
def job_file_path (job_id : JobId) : String :=
  job_id ++ ".json"

/-- `JobPersistence::save_job` (persistence.rs lines 79–91): serialize to
pretty JSON, `File::create` the target path, `write_all`, `flush`.  Returns
the new store contents and the file operations performed, in order. -/
def JobPersistence.save_job (store : Store) (job : Job) : Store × List FileOp :=
  let file_path := job_file_path job.id
  let json_data := encodeJob job
  (storeInsert store file_path json_data,
   [.create file_path, .writeAll file_path json_data, .flush file_path])

/-- `JobPersistence::load_job` (persistence.rs lines 94–108). -/
def JobPersistence.load_job (store : Store) (job_id : JobId) :
    Except PersistenceError Job :=
  let file_path := job_file_path job_id
  match storeLookup store file_path with
  | none => .error (.JobNotFound job_id)
  | some content =>
    match decodeJob content with
    | .ok job => .ok job
    | .error e => .error (.SerializationError e)

/-- `JobPersistence::delete_job` (persistence.rs lines 111–119): best-effort
unlink, missing file is not an error. -/
def JobPersistence.delete_job (store : Store) (job_id : JobId) : Store :=
  storeRemove store (job_file_path job_id)

/-- `path.extension() == Some("json")`, modelled as a suffix check on the
character list (kernel-computable, unlike `String.endsWith`). -/
def strEndsWith (s suffix : String) : Bool :=
  List.isSuffixOf suffix.toList s.toList

/-- `JobPersistence::list_jobs` (persistence.rs lines 122–142): scan the
directory, keep `.json` files, silently skip entries that fail to decode. -/
def JobPersistence.list_jobs (store : Store) : List Job :=
  store.filterMap (fun e =>
    if strEndsWith e.1 ".json" then (decodeJob e.2).toOption else none)

/-- `MonitorError` from monitor.rs. -/
inductive MonitorError
  | JobNotFound (id : String)
  | MonitoringFailed (msg : String)
  | HealthCheckFailed (msg : String)
deriving DecidableEq, Repr

/-- `JobHealth` from monitor.rs (`average_duration : f64` as `Rat`). -/
structure JobHealth where
  job_id : JobId
  status : JobStatus
  last_check : Instant
  execution_count : Nat
  failure_count : Nat
  average_duration : Rat
  last_execution : Option Instant
deriving DecidableEq, Repr

/-- `MonitorStats` from monitor.rs. -/
structure MonitorStats where
  total_jobs : Nat
  running_jobs : Nat
  completed_jobs : Nat
  failed_jobs : Nat
  cancelled_jobs : Nat
  average_execution_time : Rat
  success_rate : Rat
deriving DecidableEq, Repr

/-- `MonitorStats::default()`. -/
def MonitorStats.default : MonitorStats :=
  { total_jobs := 0, running_jobs := 0, completed_jobs := 0, failed_jobs := 0,
    cancelled_jobs := 0, average_execution_time := 0, success_rate := 0 }

def healthLookup : List (JobId × JobHealth) → JobId → Option JobHealth
  | [], _ => none
  | (q, v) :: rest, id => if q = id then some v else healthLookup rest id

def healthInsert : List (JobId × JobHealth) → JobId → JobHealth →
    List (JobId × JobHealth)
  | [], id, h => [(id, h)]
  | (q, w) :: rest, id, h =>
    if q = id then (id, h) :: rest else (q, w) :: healthInsert rest id h

def healthRemove (l : List (JobId × JobHealth)) (id : JobId) :
    List (JobId × JobHealth) :=
  l.filter (fun e => ¬ e.1 = id)

/-- `JobMonitor` from monitor.rs: the tracked-jobs map and the aggregate
statistics (the background health-check task is not part of this state). -/
structure JobMonitor where
  tracked_jobs : List (JobId × JobHealth)
  stats : MonitorStats
  is_active : Bool
deriving DecidableEq, Repr

/-- `JobMonitor::new()`. -/
def JobMonitor.new : JobMonitor :=
  { tracked_jobs := [], stats := MonitorStats.default, is_active := false }

/-- `JobMonitor::update_stats_internal` (monitor.rs lines 267–310): recompute
the aggregate statistics from the tracked jobs.  Note `execution_count`
contributes only for jobs whose current status is `Completed`, and
`failure_count` only for jobs whose current status is `Failed`. -/
def update_stats_internal (tracked : List (JobId × JobHealth)) : MonitorStats :=
  let step := fun (acc : MonitorStats × Rat × Nat × Nat) (health : JobHealth) =>
    let stats := acc.1
    let stats := { stats with total_jobs := stats.total_jobs + 1 }
    let stats :=
      match health.status with
      | .Running => { stats with running_jobs := stats.running_jobs + 1 }
      | .Completed => { stats with completed_jobs := stats.completed_jobs + 1 }
      | .Failed _ => { stats with failed_jobs := stats.failed_jobs + 1 }
      | .Cancelled => { stats with cancelled_jobs := stats.cancelled_jobs + 1 }
      | _ => stats
    let total_executions :=
      match health.status with
      | .Completed => acc.2.2.1 + health.execution_count
      | _ => acc.2.2.1
    let total_failures :=
      match health.status with
      | .Failed _ => acc.2.2.2 + health.failure_count
      | _ => acc.2.2.2
    (stats, acc.2.1 + health.average_duration, total_executions, total_failures)
  let folded := (tracked.map (fun e => e.2)).foldl step
    (MonitorStats.default, 0, 0, 0)
  let new_stats := folded.1
  let total_duration := folded.2.1
  let total_executions := folded.2.2.1
  let total_failures := folded.2.2.2
  let new_stats :=
    if 0 < new_stats.total_jobs then
      { new_stats with average_execution_time :=
          total_duration / (new_stats.total_jobs : Rat) }
    else new_stats
  if 0 < total_executions then
    { new_stats with success_rate :=
        ((total_executions : Rat) - (total_failures : Rat)) / (total_executions : Rat) }
  else new_stats

/-- `JobMonitor::track_job` (monitor.rs lines 125–145). -/
def JobMonitor.track_job (now : Instant) (m : JobMonitor) (job_id : JobId) :
    JobMonitor :=
  let health : JobHealth :=
    { job_id := job_id, status := .Scheduled, last_check := now,
      execution_count := 0, failure_count := 0, average_duration := 0,
      last_execution := none }
  let tracked := healthInsert m.tracked_jobs job_id health
  { m with tracked_jobs := tracked, stats := update_stats_internal tracked }

/-- `JobMonitor::untrack_job` (monitor.rs lines 148–159). -/
def JobMonitor.untrack_job (m : JobMonitor) (job_id : JobId) : JobMonitor :=
  if (healthLookup m.tracked_jobs job_id).isSome then
    let tracked := healthRemove m.tracked_jobs job_id
    { m with tracked_jobs := tracked, stats := update_stats_internal tracked }
  else m

/-- `JobMonitor::update_job_status` (monitor.rs lines 162–188): for a tracked
id, update status and `last_check`, bump `execution_count`/`last_execution`
on `Completed` and `failure_count` on `Failed`, and recompute stats; for an
untracked id, do nothing — and return `Ok(())` either way. -/
def JobMonitor.update_job_status (now : Instant) (m : JobMonitor)
    (job_id : JobId) (status : JobStatus) : Except MonitorError JobMonitor :=
  match healthLookup m.tracked_jobs job_id with
  | some health =>
    let health := { health with status := status, last_check := now }
    let health :=
      match status with
      | .Completed =>
        { health with execution_count := health.execution_count + 1,
                      last_execution := some now }
      | .Failed _ => { health with failure_count := health.failure_count + 1 }
      | _ => health
    let tracked := healthInsert m.tracked_jobs job_id health
    .ok { m with tracked_jobs := tracked,
                 stats := update_stats_internal tracked }
  | none => .ok m

/-- `JobMonitor::get_job_status` (monitor.rs lines 191–199). -/
def JobMonitor.get_job_status (m : JobMonitor) (job_id : JobId) :
    Except MonitorError JobStatus :=
  match healthLookup m.tracked_jobs job_id with
  | some health => .ok health.status
  | none => .error (.JobNotFound job_id)

/-- `JobMonitor::start` (monitor.rs lines 90–113): set the active flag (the
spawned background loop is not modelled). -/
def JobMonitor.start (m : JobMonitor) : JobMonitor :=
  { m with is_active := true }

end Rae

namespace Rae

/-- `SchedulerError` from mod.rs. -/
inductive SchedulerError
  | InvalidCronExpression (msg : String)
  | InvalidJob (msg : String)
  | JobNotFound (id : String)
  | PersistenceError (e : PersistenceError)
  | QueueError (e : QueueError)
  | ExecutorError (e : ExecutorError)
  | MonitorError (e : MonitorError)
  | IoError (msg : String)
deriving DecidableEq, Repr

/-- The scheduler facade's composed state: the persisted store, the queue,
and the monitor (mod.rs `Scheduler`; the executor holds no state relevant to
the claims under study). -/
structure SchedulerState where
  store : Store
  queue : JobQueue
  monitor : JobMonitor

/-- Component calls made by a facade operation, in order, so that statements
about operation ordering (persist before queue insert, compensating deletes)
can be made. -/
inductive SchedEvent
  | persistSave (id : JobId)
  | queueAdd (id : JobId)
  | monitorTrack (id : JobId)
  | persistDelete (id : JobId)
deriving DecidableEq, Repr

/-- `Scheduler::validate_job` (mod.rs lines 110–123): a present cron
expression must parse; the command must be non-empty. -/
def Scheduler.validate_job (lib : CronLib) (job : Job) :
    Except SchedulerError Unit :=
  match job.schedule.cron with
  | some cron_expr =>
    match lib cron_expr with
    | some _ =>
      if job.command.isEmpty then .error (.InvalidJob "Command cannot be empty")
      else .ok ()
    | none => .error (.InvalidCronExpression cron_expr)
  | none =>
    if job.command.isEmpty then .error (.InvalidJob "Command cannot be empty")
    else .ok ()

/-- `Scheduler::add_job` (mod.rs lines 50–69): validate, persist, insert into
the queue, track in the monitor — in that order, each step propagating its
error with `?` and performing no compensation. -/
def Scheduler.add_job (lib : CronLib) (now : Instant) (st : SchedulerState)
    (job : Job) : Except SchedulerError JobId × SchedulerState × List SchedEvent :=
  match Scheduler.validate_job lib job with
  | .error e => (.error e, st, [])
  | .ok _ =>
    let store1 := (JobPersistence.save_job st.store job).1
    match JobQueue.add_job lib now st.queue job with
    | .error e =>
      (.error (.QueueError e), { st with store := store1 },
       [.persistSave job.id, .queueAdd job.id])
    | .ok q1 =>
      let m1 := JobMonitor.track_job now st.monitor job.id
      (.ok job.id, { store := store1, queue := q1, monitor := m1 },
       [.persistSave job.id, .queueAdd job.id, .monitorTrack job.id])

/-- The `for job in jobs { self.queue.write().add_job(job)?; }` loop of
`Scheduler::load_persisted_jobs` (mod.rs lines 151–160): the first queue
error aborts the loop, keeping the insertions already made. -/
def loadJobsLoop (lib : CronLib) (now : Instant) :
    JobQueue → List Job → Except QueueError Unit × JobQueue
  | q, [] => (.ok (), q)
  | q, job :: rest =>
    match JobQueue.add_job lib now q job with
    | .ok q1 => loadJobsLoop lib now q1 rest
    | .error e => (.error e, q)

/-- `Scheduler::load_persisted_jobs` (mod.rs lines 151–160): list the
persisted jobs and insert each into the queue.  The monitor is not touched. -/
def Scheduler.load_persisted_jobs (lib : CronLib) (now : Instant)
    (st : SchedulerState) : Except SchedulerError Unit × SchedulerState :=
  let jobs := JobPersistence.list_jobs st.store
  let out := loadJobsLoop lib now st.queue jobs
  match out.1 with
  | .ok _ => (.ok (), { st with queue := out.2 })
  | .error e => (.error (.QueueError e), { st with queue := out.2 })

/-- `Scheduler::start` (mod.rs lines 126–137): start the executor (a no-op on
this state), start the monitor, load the persisted jobs. -/
def Scheduler.start (lib : CronLib) (now : Instant) (st : SchedulerState) :
    Except SchedulerError Unit × SchedulerState :=
  let st1 := { st with monitor := JobMonitor.start st.monitor }
  Scheduler.load_persisted_jobs lib now st1

end Rae

namespace Rae

/-- A job with the given id, schedule, enablement and priority and the
builder defaults of `Job::new` for every other field. -/
def mkJob (id : String) (sched : Schedule) (enabled : Bool)
    (prio : Priority) : Job :=
  { id := id, name := id, description := none, schedule := sched,
    command := "echo", args := [], working_dir := none, env := [],
    retry_policy := RetryPolicy.default, priority := prio,
    resource_limits := ResourceLimits.default, enabled := enabled,
    created_at := 0, updated_at := 0 }

/-- A concrete stand-in for a parsed recurring cron schedule: the next
occurrence is always one day later. -/
def cronDaily : CronSched := { next := fun t => some (t + 86400) }

/-- A concrete cron library recognizing a single expression. -/
def demoLib : CronLib :=
  fun e => if e = "0 18 * * *" then some cronDaily else none

/-- A one-shot job due at instant `t`. -/
def jobAt (id : String) (t : Instant) : Job :=
  mkJob id { Schedule.default with «at» := some t } true .Normal

def jobA : Job := jobAt "a" 10

def jobB : Job := jobAt "b" 20

/-- A disabled job carrying a (parsable) cron schedule. -/
def disabledCronJob : Job :=
  mkJob "d1" { Schedule.default with cron := some "0 18 * * *" } false .Normal

/-- Claim C1: the first half of the claim holds (a disabled job's computed
`next_execution` is `None`), but the second half fails on the code: neither
`get_next_job` nor `get_due_jobs` checks the schedule variant or the
`enabled` flag for a `None` key, so a disabled cron job is treated as
always due — `get_next_job` returns (and removes) it and `get_due_jobs`
lists it. -/
theorem claim_C1 :
    JobQueue.calculate_next_execution demoLib 0 disabledCronJob = none ∧
    (JobQueue.add_job demoLib 0 JobQueue.new disabledCronJob).map
        (fun q => ((JobQueue.get_next_job 5 q).1, JobQueue.get_due_jobs 5 q))
      = .ok (some disabledCronJob, [disabledCronJob]) :=
  ⟨rfl, rfl⟩

/-- Claim C2: two due jobs of equal priority with `next_execution` 10 and 20
(both ≤ now = 30); the claim says the earlier one (`jobA`) is dispatched
first, but the translated `Ord` makes the later time the heap maximum, so
`get_next_job` returns `jobB` first. -/
theorem claim_C2 :
    ((JobQueue.add_job demoLib 0 JobQueue.new jobA).bind (fun q1 =>
      (JobQueue.add_job demoLib 0 q1 jobB).map
        (fun q2 => (JobQueue.get_next_job 30 q2).1)))
      = .ok (some jobB) ∧
    jobA.priority = jobB.priority ∧
    JobQueue.calculate_next_execution demoLib 0 jobA = some 10 ∧
    JobQueue.calculate_next_execution demoLib 0 jobB = some 20 ∧
    (10 : Instant) < 20 ∧ (20 : Instant) ≤ 30 :=
  ⟨rfl, rfl, rfl, rfl, by decide, by decide⟩

/-- Claim C10: updating the status of an untracked job id returns `Ok` and
leaves the monitor (tracked map and aggregate stats) unchanged, while
`get_job_status` on the same id fails with `JobNotFound`. -/
theorem claim_C10 (now : Instant) (m : JobMonitor) (id : JobId)
    (s : JobStatus) (h : healthLookup m.tracked_jobs id = none) :
    JobMonitor.update_job_status now m id s = .ok m ∧
    JobMonitor.get_job_status m id = .error (.JobNotFound id) := by
  constructor
  · unfold JobMonitor.update_job_status
    rw [h]
  · unfold JobMonitor.get_job_status
    rw [h]

/-- Witness for C10 on a fresh monitor and the id "x". -/
theorem claim_C10_witness :
    JobMonitor.update_job_status 0 JobMonitor.new "x" .Completed
        = .ok JobMonitor.new ∧
    JobMonitor.get_job_status JobMonitor.new "x"
        = .error (.JobNotFound "x") :=
  claim_C10 0 JobMonitor.new "x" .Completed rfl

/-- A parsed cron schedule whose next occurrence is the constant 100. -/
def cron100 : CronSched := { next := fun _ => some 100 }

/-- A cron library recognizing only the expression "c". -/
def lib4 : CronLib := fun e => if e = "c" then some cron100 else none

/-- A schedule with both a cron expression and a one-shot time. -/
def sched4 : Schedule := { Schedule.default with cron := some "c", «at» := some 50 }

/-- Counterexample to C4: with both `cron` and `at` set, `at = 50` is a
strictly-future occurrence smaller than the cron occurrence 100, yet
`next_execution` returns the cron occurrence 100, not the smaller of the
two. -/
theorem claim_C4_cex :
    Parser.next_execution lib4 sched4 0 = .ok (some 100) ∧
    cron100.next 0 = some 100 ∧
    sched4.«at» = some 50 ∧
    (0 : Instant) < 50 ∧ (50 : Instant) < 100 :=
  ⟨rfl, rfl, rfl, by decide, by decide⟩

/-- Reduction of `Except` binds on a success value. -/
theorem ok_bind {ε α β : Type} (a : α) (f : α → Except ε β) :
    (Except.ok (ε := ε) a >>= f) = f a := rfl

/-- Claim C4 (amended): a present, parsable cron expression short-circuits —
the result is the cron occurrence (falling back to `after` itself when the
crate yields none), and `at` is ignored; strict futurity holds whenever
`cron` is unset; a schedule with neither `cron` nor `at` (event/pattern
only) yields `None`. -/
theorem claim_C4 (lib : CronLib) (s : Schedule) (after : Instant) :
    (∀ e c, s.cron = some e → lib e = some c →
      Parser.next_execution lib s after = .ok (some ((c.next after).getD after))) ∧
    (s.cron = none → ∀ t, Parser.next_execution lib s after = .ok (some t) →
      after < t) ∧
    (s.cron = none → s.«at» = none →
      Parser.next_execution lib s after = .ok none) := by
  refine ⟨?_, ?_, ?_⟩
  · intro e c he hc
    simp [Parser.next_execution, he, Parser.next_cron_execution,
      Parser.parse_cron, hc, ok_bind]
  · intro hc t
    unfold Parser.next_execution
    rw [hc]
    cases ha : s.«at» with
    | none => intro h; cases h
    | some a =>
      by_cases hlt : after < a
      · simp only [hlt, if_pos]
        intro h
        cases h
        exact hlt
      · simp only [hlt, if_neg, not_false_iff]
        intro h
        cases h
  · intro hc ha
    unfold Parser.next_execution
    rw [hc, ha]

/-- Witness for C4 at the concrete library `lib4` and schedule `sched4`. -/
theorem claim_C4_witness :
    Parser.next_execution lib4 sched4 0 = .ok (some ((cron100.next 0).getD 0)) :=
  (claim_C4 lib4 sched4 0).1 "c" cron100 rfl rfl

end Rae

namespace Rae

/-- A file path never equals itself extended by ".tmp". -/
theorem path_ne_tmp (p : String) : p ≠ p ++ ".tmp" := by
  intro h
  have hl := congrArg String.length h
  rw [String.length_append] at hl
  have h4 : (".tmp" : String).length = 4 := rfl
  rw [h4] at hl
  omega

/-- Counterexample to C7: saving `jobA` into an empty store performs exactly
create / write_all / flush on the final target "a.json" — no `.tmp` file is
ever touched and no rename is performed. -/
theorem claim_C7_cex :
    (JobPersistence.save_job [] jobA).2 =
      [.create "a.json", .writeAll "a.json" (encodeJob jobA), .flush "a.json"] ∧
    ((JobPersistence.save_job [] jobA).2.all
      (fun op => !(op.touches "a.json.tmp") && !op.isRename)) = true :=
  ⟨rfl, rfl⟩

/-- Claim C7 (amended): `save_job` serializes the job to JSON and writes it
directly to the target `<id>.json` (create, write_all, flush); it uses no
temporary `<id>.json.tmp` file and no rename, so the save is not performed
atomically via a tmp-and-rename protocol.  The store afterwards holds the
encoded job at the target path. -/
theorem claim_C7 (store : Store) (job : Job) :
    storeLookup (JobPersistence.save_job store job).1 (job_file_path job.id)
      = some (encodeJob job) ∧
    (JobPersistence.save_job store job).2 =
      [.create (job_file_path job.id),
       .writeAll (job_file_path job.id) (encodeJob job),
       .flush (job_file_path job.id)] ∧
    ((JobPersistence.save_job store job).2.all
      (fun op => op.touches (job_file_path job.id))) = true ∧
    ((JobPersistence.save_job store job).2.all
      (fun op => !(op.touches (job_file_path job.id ++ ".tmp"))
        && !op.isRename)) = true := by
  have hne : job_file_path job.id ≠ job_file_path job.id ++ ".tmp" :=
    path_ne_tmp _
  refine ⟨?_, rfl, ?_, ?_⟩
  · induction store with
    | nil => simp [JobPersistence.save_job, storeInsert, storeLookup]
    | cons e rest ih =>
      by_cases h : e.1 = job_file_path job.id
      · simp [JobPersistence.save_job, storeInsert, storeLookup, h]
      · simpa [JobPersistence.save_job, storeInsert, storeLookup, h] using ih
  · simp [JobPersistence.save_job, FileOp.touches]
  · simp [JobPersistence.save_job, FileOp.touches, FileOp.isRename, hne]

end Rae

namespace Rae

/-- A queue already holding `jobA` (so that a second insert is a duplicate). -/
def queueWithA : JobQueue :=
  match JobQueue.add_job demoLib 0 JobQueue.new jobA with
  | .ok q => q
  | .error _ => JobQueue.new

/-- A scheduler state with an empty persisted store but `jobA` queued. -/
def st0 : SchedulerState :=
  { store := [], queue := queueWithA, monitor := JobMonitor.new }

/-- Counterexample to C3: starting from an empty persisted store, a failed
`add_job` (duplicate queue insert of `jobA`) leaves the just-persisted file
in the store — there is no compensating deletion, so the persisted store
did not stay unchanged. -/
theorem claim_C3_cex :
    (Scheduler.add_job demoLib 0 st0 jobA).1
      = .error (.QueueError (.JobAlreadyExists "a")) ∧
    (Scheduler.add_job demoLib 0 st0 jobA).2.1.store
      = [("a.json", encodeJob jobA)] ∧
    st0.store = [] :=
  ⟨rfl, rfl, rfl⟩

/-- Claim C3 (amended): in `Scheduler::add_job` the persistence write
precedes the queue insertion (the event trace is exactly
persist-then-queue-insert); when the queue insertion fails (duplicate
JobId), the error is surfaced, the queue and the monitor are unchanged, but
the persisted file is kept — no compensating delete is issued, so the store
equals the post-save store. -/
theorem claim_C3 (lib : CronLib) (now : Instant) (st : SchedulerState)
    (job : Job) (e : QueueError)
    (hv : Scheduler.validate_job lib job = .ok ())
    (he : JobQueue.add_job lib now st.queue job = .error e) :
    (Scheduler.add_job lib now st job).1 = .error (.QueueError e) ∧
    (Scheduler.add_job lib now st job).2.1.store
      = (JobPersistence.save_job st.store job).1 ∧
    (Scheduler.add_job lib now st job).2.1.queue = st.queue ∧
    (Scheduler.add_job lib now st job).2.1.monitor = st.monitor ∧
    (Scheduler.add_job lib now st job).2.2
      = [.persistSave job.id, .queueAdd job.id] := by
  unfold Scheduler.add_job
  rw [hv, he]
  exact ⟨rfl, rfl, rfl, rfl, rfl⟩

/-- Witness for C3: the concrete failed duplicate insert of `jobA` into
`st0`. -/
theorem claim_C3_witness :
    (Scheduler.add_job demoLib 0 st0 jobA).1
      = .error (.QueueError (.JobAlreadyExists "a")) ∧
    (Scheduler.add_job demoLib 0 st0 jobA).2.1.store
      = (JobPersistence.save_job st0.store jobA).1 ∧
    (Scheduler.add_job demoLib 0 st0 jobA).2.1.queue = st0.queue ∧
    (Scheduler.add_job demoLib 0 st0 jobA).2.1.monitor = st0.monitor ∧
    (Scheduler.add_job demoLib 0 st0 jobA).2.2
      = [.persistSave "a", .queueAdd "a"] :=
  claim_C3 demoLib 0 st0 jobA (.JobAlreadyExists "a") rfl rfl

/-- A one-shot job whose encoding sits in the persisted store. -/
def jobP : Job := jobAt "p1" 10

/-- A freshly constructed scheduler whose store holds one persisted job. -/
def stFresh : SchedulerState :=
  { store := [("p1.json", encodeJob jobP)], queue := JobQueue.new,
    monitor := JobMonitor.new }

/-- Claim C5: `Scheduler::start` on a store holding the persisted job "p1"
succeeds and inserts the job into the queue, but `load_persisted_jobs`
never touches the monitor: after the restart the monitor tracks nothing,
contradicting the claim that every persisted job is tracked by the monitor
(and `get_job_status`, hence `Scheduler::list_jobs`, fails for it with
`JobNotFound`). -/
theorem claim_C5 :
    (Scheduler.start demoLib 0 stFresh).1 = .ok () ∧
    ((Scheduler.start demoLib 0 stFresh).2.queue.job_index.map
      (fun e => e.1)) = ["p1"] ∧
    (Scheduler.start demoLib 0 stFresh).2.monitor.tracked_jobs = [] ∧
    JobMonitor.get_job_status (Scheduler.start demoLib 0 stFresh).2.monitor "p1"
      = .error (.JobNotFound "p1") :=
  ⟨rfl, rfl, rfl, rfl⟩

end Rae

namespace Rae

/-- The worker loop with an empty channel produces no events. -/
theorem process_jobs_nil (runJob : Job → Nat → JobResult) :
    ∀ fuel, JobExecutor.process_jobs runJob fuel [] = [] := by
  intro fuel
  cases fuel <;> rfl

/-- Worker-loop trace of a single always-failing job queued at attempt `k`:
attempts `k, k+1, …, max_attempts` are run, each non-final one followed by
the computed backoff sleep. -/
theorem process_jobs_failing (runJob : Job → Nat → JobResult) (job : Job)
    (hfail : ∀ a, ∃ msg, (runJob job a).status = .Failed msg) :
    ∀ fuel k, 1 ≤ k → k ≤ job.retry_policy.max_attempts →
      job.retry_policy.max_attempts + 1 - k ≤ fuel →
      ranAttempts (JobExecutor.process_jobs runJob fuel [{ job := job, attempt := k }])
          = List.range' k (job.retry_policy.max_attempts + 1 - k) ∧
      sleptSeconds (JobExecutor.process_jobs runJob fuel [{ job := job, attempt := k }])
          = (List.range' k (job.retry_policy.max_attempts - k)).map
              (JobExecutor.calculate_retry_delay job) := by
  intro fuel
  induction fuel with
  | zero =>
    intro k hk1 hkN hfuel
    omega
  | succ n ih =>
    intro k hk1 hkN hfuel
    obtain ⟨msg, hm⟩ := hfail k
    by_cases hlt : k < job.retry_policy.max_attempts
    · have hrec := ih (k + 1) (by omega) (by omega) (by omega)
      have hcount : job.retry_policy.max_attempts + 1 - k
          = (job.retry_policy.max_attempts + 1 - (k + 1)) + 1 := by omega
      have hsleep : job.retry_policy.max_attempts - k
          = (job.retry_policy.max_attempts - (k + 1)) + 1 := by omega
      constructor
      · rw [hcount, List.range']
        simp only [JobExecutor.process_jobs, hm, hlt, if_pos, List.nil_append]
        simpa [ranAttempts] using hrec.1
      · rw [hsleep, List.range']
        simp only [JobExecutor.process_jobs, hm, hlt, if_pos, List.nil_append]
        simpa [sleptSeconds] using hrec.2
    · have hk : k = job.retry_policy.max_attempts := by omega
      have hc1 : job.retry_policy.max_attempts + 1 - k = 1 := by omega
      have hc0 : job.retry_policy.max_attempts - k = 0 := by omega
      rw [hc1, hc0]
      simp [JobExecutor.process_jobs, hm, hlt, ranAttempts, sleptSeconds,
        List.range', process_jobs_nil]

/-- Claim C6: for a job whose every execution fails and whose
`max_attempts = N ≥ 1`, the worker loop (observed for at least `N` channel
receives) produces exactly `N` `JobResult` records with strictly increasing
attempts `1, …, N` — re-enqueueing with `attempt+1` exactly while
`attempt < N` — and sleeps the computed backoff of each non-final attempt,
performing no further attempt once `attempt = N`. -/
theorem claim_C6 (runJob : Job → Nat → JobResult) (job : Job) (fuel : Nat)
    (hfail : ∀ a, ∃ msg, (runJob job a).status = .Failed msg)
    (hN : 1 ≤ job.retry_policy.max_attempts)
    (hfuel : job.retry_policy.max_attempts ≤ fuel) :
    ranAttempts (JobExecutor.process_jobs runJob fuel [{ job := job, attempt := 1 }])
        = List.range' 1 job.retry_policy.max_attempts ∧
    sleptSeconds (JobExecutor.process_jobs runJob fuel [{ job := job, attempt := 1 }])
        = (List.range' 1 (job.retry_policy.max_attempts - 1)).map
            (JobExecutor.calculate_retry_delay job) := by
  have h := process_jobs_failing runJob job hfail fuel 1 (le_refl 1) hN
    (by omega)
  simpa using h

/-- A failing job for the C6 witness: three attempts, one-second base delay,
exponential backoff. -/
def job6 : Job :=
  { mkJob "j6" Schedule.default true .Normal with
    retry_policy := { max_attempts := 3, delay := 1,
                      exponential_backoff := true, max_delay := some 3600 } }

/-- A run function whose every execution fails. -/
def run6 : Job → Nat → JobResult :=
  fun j _a =>
    { job_id := j.id, started_at := 0, ended_at := some 0, exit_code := some 1,
      stdout := "", stderr := "", status := .Failed "Exit code: 1",
      resource_usage := none }

/-- Witness for C6: the always-failing `job6` with `max_attempts = 3`
produces attempts `[1, 2, 3]` and backoff sleeps `[1, 2]`. -/
theorem claim_C6_witness :
    ranAttempts (JobExecutor.process_jobs run6 3 [{ job := job6, attempt := 1 }])
        = List.range' 1 job6.retry_policy.max_attempts ∧
    sleptSeconds (JobExecutor.process_jobs run6 3 [{ job := job6, attempt := 1 }])
        = (List.range' 1 (job6.retry_policy.max_attempts - 1)).map
            (JobExecutor.calculate_retry_delay job6) :=
  claim_C6 run6 job6 3 (fun _ => ⟨"Exit code: 1", rfl⟩) (by decide) (by decide)

end Rae

namespace Rae

/-- Reduction of `Except.map` on a success value. -/
theorem ok_map {ε α β : Type} (a : α) (f : α → β) :
    (Except.ok (ε := ε) a).map f = .ok (f a) := rfl

theorem decodeStr_enc (s : String) : decodeStr (encodeStr s) = .ok s := rfl

theorem decodeBool_enc (b : Bool) : decodeBool (encodeBool b) = .ok b := rfl

theorem decodeRat_enc (x : Rat) : decodeRat (encodeRat x) = .ok x := rfl

theorem decodeInstant_enc (t : Instant) :
    decodeInstant (encodeInstant t) = .ok t := by
  simp [decodeInstant, encodeInstant]

theorem decodeNat_enc (n : Nat) : decodeNat (encodeNat n) = .ok n := by
  simp [decodeNat, encodeNat]

theorem decodeStrList_enc (l : List String) :
    decodeStrList (l.map encodeStr) = .ok l := by
  induction l with
  | nil => rfl
  | cons s rest ih => simp [decodeStrList, encodeStr, ih, ok_bind]

theorem decodeArgs_enc (l : List String) :
    decodeArgs (.arr (l.map encodeStr)) = .ok l :=
  decodeStrList_enc l

theorem decodeStrPairs_enc (m : List (String × String)) :
    decodeStrPairs (m.map (fun p => (p.1, Json.str p.2))) = .ok m := by
  induction m with
  | nil => rfl
  | cons p rest ih =>
    obtain ⟨k, v⟩ := p
    simp [decodeStrPairs, ih, ok_bind]

theorem decodeStrMap_enc (m : List (String × String)) :
    decodeStrMap (encodeStrMap m) = .ok m :=
  decodeStrPairs_enc m

theorem decodePriority_enc (p : Priority) :
    decodePriority (encodePriority p) = .ok p := by
  cases p <;> rfl

theorem decodeEventType_enc (e : EventType) :
    decodeEventType (encodeEventType e) = .ok e := by
  cases e <;> rfl

theorem decodePatternType_enc (p : PatternType) :
    decodePatternType (encodePatternType p) = .ok p := by
  cases p <;> rfl

/-- Round trip through the `Option` encoding, given a round-tripping and
never-`null` component encoding. -/
theorem decodeOpt_enc {α : Type} (f : Json → Except String α) (g : α → Json)
    (hg : ∀ a, ¬ g a = .null) (hfg : ∀ a, f (g a) = .ok a) (o : Option α) :
    decodeOpt f (encodeOpt g o) = .ok o := by
  cases o with
  | none => rfl
  | some a =>
    have h2 : decodeOpt f (g a) = (f (g a)).map some := by
      cases hga : g a with
      | null => exact absurd hga (hg a)
      | bool b => rfl
      | num n => rfl
      | str s => rfl
      | arr elems => rfl
      | obj fields => rfl
    simp [encodeOpt, h2, hfg, ok_map]

theorem decodeOptStr_enc (o : Option String) :
    decodeOpt decodeStr (encodeOpt encodeStr o) = .ok o :=
  decodeOpt_enc decodeStr encodeStr (fun _ h => Json.noConfusion h)
    (fun _ => rfl) o

theorem decodeOptNat_enc (o : Option Nat) :
    decodeOpt decodeNat (encodeOpt encodeNat o) = .ok o :=
  decodeOpt_enc _ _ (fun _ h => Json.noConfusion h) decodeNat_enc o

theorem decodeOptRat_enc (o : Option Rat) :
    decodeOpt decodeRat (encodeOpt encodeRat o) = .ok o :=
  decodeOpt_enc decodeRat encodeRat (fun _ h => Json.noConfusion h)
    (fun _ => rfl) o

theorem decodeOptInstant_enc (o : Option Instant) :
    decodeOpt decodeInstant (encodeOpt encodeInstant o) = .ok o :=
  decodeOpt_enc _ _ (fun _ h => Json.noConfusion h) decodeInstant_enc o

theorem decodeOptStrMap_enc (o : Option (List (String × String))) :
    decodeOpt decodeStrMap (encodeOpt encodeStrMap o) = .ok o :=
  decodeOpt_enc _ _ (fun _ h => Json.noConfusion h) decodeStrMap_enc o

theorem decodeEventTrigger_enc (e : EventTrigger) :
    decodeEventTrigger (encodeEventTrigger e) = .ok e := by
  obtain ⟨et, path, fil⟩ := e
  simp [encodeEventTrigger, decodeEventTrigger, getField, getOptField,
    List.lookup, ok_bind, decodeEventType_enc, decodeOptStr_enc,
    decodeOptStrMap_enc]

theorem decodeOptEventTrigger_enc (o : Option EventTrigger) :
    decodeOpt decodeEventTrigger (encodeOpt encodeEventTrigger o) = .ok o :=
  decodeOpt_enc _ _ (fun _ h => Json.noConfusion h) decodeEventTrigger_enc o

theorem decodePatternTrigger_enc (p : PatternTrigger) :
    decodePatternTrigger (encodePatternTrigger p) = .ok p := by
  obtain ⟨pt, th, w⟩ := p
  simp [encodePatternTrigger, decodePatternTrigger, getField,
    List.lookup, ok_bind, decodePatternType_enc, decodeRat_enc,
    decodeNat_enc, decodeRat, encodeRat]

theorem decodeOptPatternTrigger_enc (o : Option PatternTrigger) :
    decodeOpt decodePatternTrigger (encodeOpt encodePatternTrigger o) = .ok o :=
  decodeOpt_enc _ _ (fun _ h => Json.noConfusion h) decodePatternTrigger_enc o

theorem decodeSchedule_enc (s : Schedule) :
    decodeSchedule (encodeSchedule s) = .ok s := by
  obtain ⟨c, a, ev, pat, tz⟩ := s
  simp [encodeSchedule, decodeSchedule, getOptField, List.lookup, ok_bind,
    decodeOptStr_enc, decodeOptInstant_enc, decodeOptEventTrigger_enc,
    decodeOptPatternTrigger_enc]

theorem decodeRetryPolicy_enc (r : RetryPolicy) :
    decodeRetryPolicy (encodeRetryPolicy r) = .ok r := by
  obtain ⟨ma, d, eb, md⟩ := r
  simp [encodeRetryPolicy, decodeRetryPolicy, getField, getOptField,
    List.lookup, ok_bind, decodeNat_enc, decodeBool_enc, decodeOptNat_enc]

theorem decodeResourceLimits_enc (r : ResourceLimits) :
    decodeResourceLimits (encodeResourceLimits r) = .ok r := by
  obtain ⟨mc, mm, md, mdk⟩ := r
  simp [encodeResourceLimits, decodeResourceLimits, getOptField,
    List.lookup, ok_bind, decodeOptRat_enc, decodeOptNat_enc]

/-- serde round trip on the `Job` structure. -/
theorem decodeJob_enc (j : Job) : decodeJob (encodeJob j) = .ok j := by
  obtain ⟨id, name, desc, sched, cmd, args, wd, env, rp, prio, rl, en, ca, ua⟩ := j
  simp [encodeJob, decodeJob, getField, getOptField, List.lookup, ok_bind,
    decodeStr_enc, decodeOptStr_enc, decodeSchedule_enc, decodeArgs_enc,
    decodeStrMap_enc, decodeRetryPolicy_enc, decodePriority_enc,
    decodeResourceLimits_enc, decodeBool_enc, decodeInstant_enc,
    decodeStr, encodeStr, decodeBool, encodeBool]

/-- `storeLookup` after `storeInsert` at the same path. -/
theorem storeLookup_insert_self (s : Store) (p : String) (v : Json) :
    storeLookup (storeInsert s p v) p = some v := by
  induction s with
  | nil => simp [storeInsert, storeLookup]
  | cons e rest ih =>
    by_cases h : e.1 = p
    · simp [storeInsert, storeLookup, h]
    · simp [storeInsert, storeLookup, h, ih]

/-- Claim C8: for every job and every prior store contents, `save_job`
followed by `load_job` of the same id succeeds and returns the job
unchanged — every field round-trips through the JSON encoding. -/
theorem claim_C8 (store : Store) (job : Job) :
    JobPersistence.load_job (JobPersistence.save_job store job).1 job.id
      = .ok job := by
  simp only [JobPersistence.load_job, JobPersistence.save_job,
    storeLookup_insert_self, decodeJob_enc]

end Rae



namespace Rae

theorem foldl_pick_mem (init : QueuedJob) (l : List QueuedJob) :
    l.foldl (fun best y => if QueuedJob.cmp y best = .gt then y else best) init
      ∈ init :: l := by
  induction l generalizing init with
  | nil => simp
  | cons z zs ih =>
    simp only [List.foldl]
    have h := ih (if QueuedJob.cmp z init = .gt then z else init)
    simp only [List.mem_cons] at h ⊢
    by_cases hc : QueuedJob.cmp z init = .gt
    · rw [if_pos hc] at h ⊢
      tauto
    · rw [if_neg hc] at h ⊢
      tauto

theorem heapPeek_mem {l : List QueuedJob} {x : QueuedJob}
    (h : heapPeek l = some x) : x ∈ l := by
  cases l with
  | nil => cases h
  | cons y ys =>
    simp only [heapPeek, Option.some.injEq] at h
    subst h
    exact foldl_pick_mem y ys

theorem indexRemove_map_snd (idx : List (JobId × QueuedJob)) (top : QueuedJob)
    (hnd : (idx.map (fun e => e.1)).Nodup)
    (hc : ∀ e ∈ idx, e.1 = e.2.job.id)
    (hm : top ∈ idx.map (fun e => e.2)) :
    (indexRemove idx top.job.id).map (fun e => e.2)
      = (idx.map (fun e => e.2)).erase top := by
  induction idx with
  | nil => simp at hm
  | cons e rest ih =>
    obtain ⟨k, v⟩ := e
    simp only [List.map_cons] at hm hnd ⊢
    have hk : k = v.job.id := hc (k, v) (List.mem_cons_self _ _)
    rcases List.nodup_cons.mp hnd with ⟨hknotin, hndrest⟩
    by_cases hkt : k = top.job.id
    · have hv : v = top := by
        rcases List.mem_cons.mp hm with h1 | h2
        · exact h1.symm
        · exfalso
          rcases List.mem_map.mp h2 with ⟨e', he', he2⟩
          have h1 : e'.1 = top.job.id := by
            rw [hc e' (List.mem_cons_of_mem _ he'), he2]
          apply hknotin
          rw [hkt, ← h1]
          exact List.mem_map_of_mem _ he'
      have hrest : List.filter (fun e => decide (¬ e.1 = top.job.id)) rest
          = rest := by
        apply List.filter_eq_self.mpr
        intro e' he'
        have hne : ¬ e'.1 = top.job.id := by
          intro heq
          apply hknotin
          rw [hkt, ← heq]
          exact List.mem_map_of_mem _ he'
        simpa using hne
      have hcond : (decide (¬ k = top.job.id)) = false := by simp [hkt]
      simp only [indexRemove, List.filter_cons, hcond]
      simp only [Bool.false_eq_true, if_false, hrest, hv,
        List.erase_cons_head]
    · have hvt : ¬ v = top := by
        intro he
        apply hkt
        rw [hk, he]
      have hm' : top ∈ rest.map (fun e => e.2) := by
        rcases List.mem_cons.mp hm with h1 | h2
        · exact absurd h1.symm hvt
        · exact h2
      have ihh := ih hndrest (fun e he => hc e (List.mem_cons_of_mem _ he)) hm'
      have hcond : (decide (¬ k = top.job.id)) = true := by simp [hkt]
      simp only [indexRemove, List.filter_cons, hcond, if_true,
        List.map_cons]
      simp only [indexRemove] at ihh
      rw [ihh, List.erase_cons_tail (by simpa using fun h => hvt h)]


/-- The dual-index well-formedness invariant of `JobQueue`: index keys are
unique, each key is the id of its value, and the heap is a permutation of
the index values. -/
def QueueWf (q : JobQueue) : Prop :=
  (q.job_index.map (fun e => e.1)).Nodup ∧
  (∀ e ∈ q.job_index, e.1 = e.2.job.id) ∧
  q.jobs.Perm (q.job_index.map (fun e => e.2))

theorem wf_new : QueueWf JobQueue.new :=
  ⟨by simp [JobQueue.new], by simp [JobQueue.new], by simp [JobQueue.new]⟩

theorem wf_add_ok {lib : CronLib} {now : Instant} {q : JobQueue} {job : Job}
    {q1 : JobQueue} (h : QueueWf q)
    (hadd : JobQueue.add_job lib now q job = .ok q1) : QueueWf q1 := by
  unfold JobQueue.add_job at hadd
  by_cases hcon : indexContains q.job_index job.id = true
  · rw [if_pos hcon] at hadd
    cases hadd
  · rw [if_neg hcon] at hadd
    cases hadd
    have hnotin : job.id ∉ q.job_index.map (fun e => e.1) := by
      intro hmem
      apply hcon
      rcases List.mem_map.mp hmem with ⟨e, he, hek⟩
      unfold indexContains
      rw [List.any_eq_true]
      exact ⟨e, he, by simp [hek]⟩
    refine ⟨?_, ?_, ?_⟩
    · simpa using List.nodup_cons.mpr ⟨hnotin, h.1⟩
    · intro e he
      rcases List.mem_cons.mp he with h1 | h2
      · rw [h1]
      · exact h.2.1 e h2
    · simp only [List.map_cons]
      exact List.Perm.cons _ h.2.2

theorem wf_remove_ok {q : JobQueue} {id : JobId} {q1 : JobQueue}
    (h : QueueWf q) (hrem : JobQueue.remove_job q id = .ok q1) :
    QueueWf q1 := by
  unfold JobQueue.remove_job at hrem
  by_cases hcon : indexContains q.job_index id = true
  · rw [if_neg (by simp [hcon])] at hrem
    cases hrem
    refine ⟨?_, ?_, ?_⟩
    · exact h.1.sublist ((List.filter_sublist _).map _)
    · intro e he
      exact h.2.1 e (List.mem_of_mem_filter he)
    · exact List.Perm.refl _
  · rw [if_pos (by simp [hcon])] at hrem
    cases hrem

theorem wf_next {now : Instant} {q : JobQueue} (h : QueueWf q) :
    QueueWf (JobQueue.get_next_job now q).2 := by
  unfold JobQueue.get_next_job
  cases hp : heapPeek q.jobs with
  | none => exact h
  | some top =>
    have hmem : top ∈ q.jobs := heapPeek_mem hp
    have hvals : top ∈ q.job_index.map (fun e => e.2) := (h.2.2.mem_iff).mp hmem
    have hkey : (indexRemove q.job_index top.job.id).map (fun e => e.2)
        = (q.job_index.map (fun e => e.2)).erase top :=
      indexRemove_map_snd q.job_index top h.1 h.2.1 hvals
    have hwf2 : QueueWf
        { jobs := q.jobs.erase top,
          job_index := indexRemove q.job_index top.job.id,
          stats := { q.stats with
            scheduled_jobs := (q.jobs.erase top).length } } := by
      refine ⟨?_, ?_, ?_⟩
      · exact h.1.sublist ((List.filter_sublist _).map _)
      · intro e he
        exact h.2.1 e (List.mem_of_mem_filter he)
      · rw [hkey]
        exact h.2.2.erase top
    dsimp only
    cases hne : top.next_execution with
    | some t =>
      dsimp only
      by_cases hle : t ≤ now
      · rw [if_pos hle]
        exact hwf2
      · rw [if_neg hle]
        exact h
    | none =>
      dsimp only
      exact hwf2

/-- The queue operations of the claim. -/
inductive QueueOp
  | add (now : Instant) (job : Job)
  | remove (id : JobId)
  | update (now : Instant) (job : Job)
  | next (now : Instant)
  | clear

/-- Apply one operation, keeping the state the source keeps on an error
(`add_job` and `remove_job` error out before mutating; the `remove`-then-
`add` inside `update_job` is modelled with its intermediate state kept). -/
def applyOp (lib : CronLib) (q : JobQueue) : QueueOp → JobQueue
  | .add now job =>
    match JobQueue.add_job lib now q job with
    | .ok q1 => q1
    | .error _ => q
  | .remove id =>
    match JobQueue.remove_job q id with
    | .ok q1 => q1
    | .error _ => q
  | .update now job =>
    match JobQueue.remove_job q job.id with
    | .error _ => q
    | .ok q1 =>
      match JobQueue.add_job lib now q1 job with
      | .ok q2 => q2
      | .error _ => q1
  | .next now => (JobQueue.get_next_job now q).2
  | .clear => JobQueue.clear q

def applyOps (lib : CronLib) (ops : List QueueOp) (q : JobQueue) : JobQueue :=
  ops.foldl (applyOp lib) q

theorem wf_applyOp (lib : CronLib) (q : JobQueue) (op : QueueOp)
    (h : QueueWf q) : QueueWf (applyOp lib q op) := by
  cases op with
  | add now job =>
    simp only [applyOp]
    cases hadd : JobQueue.add_job lib now q job with
    | ok q1 => exact wf_add_ok h hadd
    | error _ => exact h
  | remove id =>
    simp only [applyOp]
    cases hrem : JobQueue.remove_job q id with
    | ok q1 => exact wf_remove_ok h hrem
    | error _ => exact h
  | update now job =>
    simp only [applyOp]
    cases hrem : JobQueue.remove_job q job.id with
    | error _ => exact h
    | ok q1 =>
      dsimp only
      have h1 := wf_remove_ok h hrem
      cases hadd : JobQueue.add_job lib now q1 job with
      | ok q2 => exact wf_add_ok h1 hadd
      | error _ => exact h1
  | next now =>
    exact wf_next h
  | clear =>
    refine ⟨?_, ?_, ?_⟩ <;> simp [applyOp, JobQueue.clear]

theorem wf_applyOps (lib : CronLib) (ops : List QueueOp) :
    ∀ q : JobQueue, QueueWf q → QueueWf (applyOps lib ops q) := by
  induction ops with
  | nil => intro q h; exact h
  | cons op rest ih =>
    intro q h
    exact ih (applyOp lib q op) (wf_applyOp lib q op h)

/-- Counting a key in a duplicate-free key list. -/
theorem countP_key_of_nodup (keys : List String) (hnd : keys.Nodup)
    (id : String) :
    keys.countP (fun k => k = id) = if id ∈ keys then 1 else 0 := by
  induction keys with
  | nil => simp
  | cons k rest ih =>
    rcases List.nodup_cons.mp hnd with ⟨hk, hrest⟩
    by_cases he : k = id
    · subst he
      simp [List.countP_cons, ih hrest, hk]
    · simp [List.countP_cons, ih hrest, he, Ne.symm he]

/-- `indexContains` decides key membership. -/
theorem indexContains_iff (idx : List (JobId × QueuedJob)) (id : JobId) :
    indexContains idx id = true ↔ id ∈ idx.map (fun e => e.1) := by
  unfold indexContains
  rw [List.any_eq_true]
  constructor
  · rintro ⟨e, he, hek⟩
    rw [List.mem_map]
    exact ⟨e, he, by simpa using hek⟩
  · intro hmem
    rcases List.mem_map.mp hmem with ⟨e, he, hek⟩
    exact ⟨e, he, by simpa using hek⟩

/-- Claim C9: after any sequence of `add_job`, `remove_job`, `update_job`,
`get_next_job` and `clear` starting from a fresh queue, the binary heap and
the `job_index` map hold exactly the same jobs: a `JobId` occurs in the heap
exactly once if it is a key of `job_index` and zero times otherwise, and
`len()` (the index size) equals the number of heap entries. -/
theorem claim_C9 (lib : CronLib) (ops : List QueueOp) :
    (∀ id : JobId,
      (applyOps lib ops JobQueue.new).jobs.countP (fun qj => qj.job.id = id)
        = (if indexContains (applyOps lib ops JobQueue.new).job_index id
            then 1 else 0)) ∧
    (applyOps lib ops JobQueue.new).jobs.length
      = (applyOps lib ops JobQueue.new).job_index.length ∧
    JobQueue.len (applyOps lib ops JobQueue.new)
      = (applyOps lib ops JobQueue.new).job_index.length := by
  obtain ⟨hnd, hc, hperm⟩ := wf_applyOps lib ops JobQueue.new wf_new
  refine ⟨?_, ?_, rfl⟩
  · intro id
    rw [hperm.countP_eq]
    rw [List.countP_map]
    have hcong : ∀ e ∈ (applyOps lib ops JobQueue.new).job_index,
        (((fun qj => decide (qj.job.id = id)) ∘ (fun e => e.2)) e = true ↔
          (fun e => decide (e.1 = id)) e = true) := by
      intro e he
      simp only [Function.comp_apply, decide_eq_true_eq]
      rw [hc e he]
    rw [List.countP_congr hcong]
    have hmapfst : (applyOps lib ops JobQueue.new).job_index.countP
        (fun e => decide (e.1 = id))
        = ((applyOps lib ops JobQueue.new).job_index.map
            (fun e => e.1)).countP (fun k => k = id) := by
      rw [List.countP_map]
      rfl
    rw [hmapfst, countP_key_of_nodup _ hnd]
    by_cases hmem : id ∈ (applyOps lib ops JobQueue.new).job_index.map
        (fun e => e.1)
    · rw [if_pos hmem, if_pos ((indexContains_iff _ _).mpr hmem)]
    · rw [if_neg hmem,
        if_neg (fun hco => hmem ((indexContains_iff _ _).mp hco))]
  · rw [hperm.length_eq, List.length_map]

end Rae
